import Mathlib

/-!
Verification of the shift-management engine (staff scheduling web app).

The source is TypeScript. We shallowly embed the engine's pure logic:

* `checkConstraints` — the Constraint Checker (leave conflict, daily
  headcount ceiling, ±1-day consecutive-run heuristic) from the
  `ShiftManagement` component that carries the `excludeShiftId` parameter.
* `planDay` / `generateMonth` — the per-day Assignment Planner and the
  Month Generator of the role-aware profile (Sunday skip, Wednesday 3,
  Saturday `min 4 available`, otherwise 4; full-time staff first; pattern
  by index parity).
* `memberWorkDays` / `memberTotalHours` / `memberAvgHours` — the numeric
  core of the per-worker workload statistics.

Modelling conventions:

* Calendar dates are embedded as epoch day numbers (`Int`).  In the source
  dates are ISO `YYYY-MM-DD` strings; on such strings equality coincides
  with day-number equality, lexicographic order coincides with `Int`
  order, and the JS `Date` ±1-day arithmetic used by the checker
  coincides with `Int` ±1.  `daysFromCivil` converts a civil (y, m, d)
  triple to the day number (standard civil-calendar algorithm, matching
  what `new Date(y, m-1, d)` denotes), and `dayOfWeekZ` matches JS
  `Date.getDay` (0 = Sunday … 6 = Saturday).
* `working_hours` is a JS number used only in sums and one guarded
  division; we embed it as `ℚ`.
* Display-only record fields that the engine never reads (emails, joined
  display names, colors) are omitted from the structures.
* JS `Array.prototype.sort` is stable; with the two-class comparator used
  by the planner (full-time before everything else, 0 otherwise) a stable
  sort is exactly the stable partition, which is how `sortStaffByRole`
  is written.
-/

/-- Staff roster entry (`interface Staff`): id, display name, role tag.
The role string `常勤` marks the full-time category. -/
structure Staff where
  id : String
  name : String
  role : String
deriving DecidableEq, Repr

/-- Shift pattern catalog entry (`interface ShiftPattern`). -/
structure ShiftPattern where
  id : String
  pattern_name : String
  start_time : String
  end_time : String
  working_hours : ℚ
deriving DecidableEq, Repr

/-- Persisted shift assignment (`interface Shift` of the checker variant:
`id` is a required string there). Dates are epoch day numbers. -/
structure Shift where
  id : String
  user_id : String
  shift_date : Int
  pattern_id : String
deriving DecidableEq, Repr

/-- Leave request (`interface LeaveRequest`): worker-declared
unavailability for one date. -/
structure LeaveRequest where
  id : String
  user_id : String
  request_date : Int
  reason : String
deriving DecidableEq, Repr

/-- Assignment draft produced by the planner before ids are assigned at
insert time (`Omit<Shift, 'id'>` in the source). -/
structure ShiftDraft where
  user_id : String
  shift_date : Int
  pattern_id : String
deriving DecidableEq, Repr

/-- Warning text for a leave conflict
(source: `'この日は休み希望が申請されています'`). -/
def leaveRequestMsg : String := "この日は休み希望が申請されています"

/-- Warning text for the daily headcount ceiling
(source: `'この日は既に3名のシフトが割り当てられています'`). -/
def headcountMsg : String := "この日は既に3名のシフトが割り当てられています"

/-- Warning text for a 3-day consecutive run
(source: `'3日連続勤務になる可能性があります'`). -/
def consecutiveMsg : String := "3日連続勤務になる可能性があります"

/-- The Constraint Checker, embedded from `checkConstraints(date, userId,
patternId, excludeShiftId?)`.  Rule order as in the source: leave
conflict, daily headcount (counting same-date shifts whose id differs
from `excludeShiftId`), then the ±1-day consecutive-run heuristic.  The
TS comparison `shift.id !== excludeShiftId` (with `excludeShiftId :
string | undefined`) is embedded as `some s.id ≠ excludeShiftId`. -/
def checkConstraints (shifts : List Shift) (leaveRequests : List LeaveRequest)
    (date : Int) (userId : String) (_patternId : String)
    (excludeShiftId : Option String) : List String :=
  let newWarnings₁ : List String :=
    if leaveRequests.any (fun leave =>
        leave.request_date == date && leave.user_id == userId) then
      [leaveRequestMsg]
    else []
  let dayShifts := shifts.filter (fun shift =>
    shift.shift_date == date && some shift.id != excludeShiftId)
  let newWarnings₂ : List String :=
    if 3 ≤ dayShifts.length then [headcountMsg] else []
  let prevDayShift := shifts.any (fun shift =>
    shift.shift_date == date - 1 && shift.user_id == userId &&
      some shift.id != excludeShiftId)
  let nextDayShift := shifts.any (fun shift =>
    shift.shift_date == date + 1 && shift.user_id == userId &&
      some shift.id != excludeShiftId)
  let newWarnings₃ : List String :=
    if prevDayShift && nextDayShift then [consecutiveMsg] else []
  newWarnings₁ ++ newWarnings₂ ++ newWarnings₃

lemma leaveRequestMsg_ne_headcountMsg : leaveRequestMsg ≠ headcountMsg := by
  decide

lemma leaveRequestMsg_ne_consecutiveMsg : leaveRequestMsg ≠ consecutiveMsg := by
  decide

lemma headcountMsg_ne_consecutiveMsg : headcountMsg ≠ consecutiveMsg := by
  decide

/-- Membership of each warning in the checker output, characterised by the
corresponding rule condition. -/
lemma checkConstraints_mem_iff (shifts : List Shift)
    (leaveRequests : List LeaveRequest) (date : Int) (userId : String)
    (patternId : String) (ex : Option String) :
    (leaveRequestMsg ∈ checkConstraints shifts leaveRequests date userId patternId ex ↔
      leaveRequests.any (fun leave =>
        leave.request_date == date && leave.user_id == userId) = true)
    ∧ (headcountMsg ∈ checkConstraints shifts leaveRequests date userId patternId ex ↔
      3 ≤ (shifts.filter (fun shift =>
        shift.shift_date == date && some shift.id != ex)).length)
    ∧ (consecutiveMsg ∈ checkConstraints shifts leaveRequests date userId patternId ex ↔
      (shifts.any (fun shift =>
        shift.shift_date == date - 1 && shift.user_id == userId &&
          some shift.id != ex) = true
      ∧ shifts.any (fun shift =>
        shift.shift_date == date + 1 && shift.user_id == userId &&
          some shift.id != ex) = true)) := by
  simp only [checkConstraints]
  have hlh := leaveRequestMsg_ne_headcountMsg
  have hlc := leaveRequestMsg_ne_consecutiveMsg
  have hhc := headcountMsg_ne_consecutiveMsg
  have hhl := leaveRequestMsg_ne_headcountMsg.symm
  have hcl := leaveRequestMsg_ne_consecutiveMsg.symm
  have hch := headcountMsg_ne_consecutiveMsg.symm
  refine ⟨?_, ?_, ?_⟩ <;>
    · split <;> split <;> split <;>
        (simp_all [List.mem_append, Bool.and_eq_true]) <;>
          first
            | omega
            | assumption

/-- C4: the daily-headcount warning is emitted exactly when the number of
existing assignments on the candidate's date — excluding the assignment
whose id equals `excludeShiftId`, so an edit-in-place does not count
itself — is at or above the fixed ceiling of 3. -/
theorem headcount_warning_iff (shifts : List Shift)
    (leaveRequests : List LeaveRequest) (date : Int) (userId : String)
    (patternId : String) (ex : Option String) :
    headcountMsg ∈ checkConstraints shifts leaveRequests date userId patternId ex ↔
      3 ≤ (shifts.filter (fun shift =>
        shift.shift_date == date && some shift.id != ex)).length :=
  (checkConstraints_mem_iff shifts leaveRequests date userId patternId ex).2.1

/-- C5: the leave-conflict warning is in the checker output if and only if
some LeaveRequest in the input has the candidate's worker id and date. -/
theorem leave_warning_iff (shifts : List Shift)
    (leaveRequests : List LeaveRequest) (date : Int) (userId : String)
    (patternId : String) (ex : Option String) :
    leaveRequestMsg ∈ checkConstraints shifts leaveRequests date userId patternId ex ↔
      ∃ leave ∈ leaveRequests,
        leave.user_id = userId ∧ leave.request_date = date := by
  rw [(checkConstraints_mem_iff shifts leaveRequests date userId patternId ex).1]
  simp [List.any_eq_true, Bool.and_eq_true, and_comm]

/-- C3: the consecutive-run rule inspects exactly the ±1-day neighbors.
If the worker has an existing assignment (other than the excluded one)
on both `date - 1` and `date + 1`, the warning is emitted; and for a
worker whose assignments all lie on `date - 1` or `date + 1`, checking a
candidate on `date + 2` yields no consecutive-run warning. -/
theorem consecutive_run_rule (shifts : List Shift)
    (leaveRequests : List LeaveRequest) (date : Int) (userId : String)
    (patternId : String) (ex : Option String) :
    ((∃ s ∈ shifts, s.shift_date = date - 1 ∧ s.user_id = userId ∧ some s.id ≠ ex) →
      (∃ s ∈ shifts, s.shift_date = date + 1 ∧ s.user_id = userId ∧ some s.id ≠ ex) →
      consecutiveMsg ∈ checkConstraints shifts leaveRequests date userId patternId ex)
    ∧ ((∀ s ∈ shifts, s.user_id = userId →
          s.shift_date = date - 1 ∨ s.shift_date = date + 1) →
      consecutiveMsg ∉
        checkConstraints shifts leaveRequests (date + 2) userId patternId ex) := by
  constructor
  · intro hprev hnext
    rw [(checkConstraints_mem_iff shifts leaveRequests date userId patternId ex).2.2]
    constructor
    · obtain ⟨s, hs, h1, h2, h3⟩ := hprev
      simp only [List.any_eq_true, Bool.and_eq_true, beq_iff_eq, bne_iff_ne]
      exact ⟨s, hs, ⟨h1, h2⟩, h3⟩
    · obtain ⟨s, hs, h1, h2, h3⟩ := hnext
      simp only [List.any_eq_true, Bool.and_eq_true, beq_iff_eq, bne_iff_ne]
      exact ⟨s, hs, ⟨h1, h2⟩, h3⟩
  · intro honly hmem
    rw [(checkConstraints_mem_iff shifts leaveRequests (date + 2) userId patternId
      ex).2.2] at hmem
    obtain ⟨-, hnext⟩ := hmem
    simp only [List.any_eq_true, Bool.and_eq_true, beq_iff_eq, bne_iff_ne] at hnext
    obtain ⟨s, hs, ⟨hd, hu⟩, -⟩ := hnext
    rcases honly s hs hu with h | h <;> omega

/-- C3 witness: with assignments for worker `u` on days 9 and 11 only,
checking day 10 yields the consecutive-run warning and checking day 12
does not. -/
theorem consecutive_run_rule_witness :
    consecutiveMsg ∈ checkConstraints
      [⟨"s1", "u", 9, "p"⟩, ⟨"s2", "u", 11, "p"⟩] [] 10 "u" "p" none
    ∧ consecutiveMsg ∉ checkConstraints
      [⟨"s1", "u", 9, "p"⟩, ⟨"s2", "u", 11, "p"⟩] [] 12 "u" "p" none :=
  ⟨(consecutive_run_rule
      [⟨"s1", "u", 9, "p"⟩, ⟨"s2", "u", 11, "p"⟩] [] 10 "u" "p" none).1
      (by decide) (by decide),
   (consecutive_run_rule
      [⟨"s1", "u", 9, "p"⟩, ⟨"s2", "u", 11, "p"⟩] [] 10 "u" "p" none).2
      (by decide)⟩

/-- C7 counterexample: it is not true that a candidate whose worker id
matches no Worker and whose pattern id matches no ShiftPattern always
receives the empty warning list — the headcount rule fires on the date
alone.  Concrete input: empty roster and catalog, three existing
assignments on day 0 by other workers, candidate ("ghost", day 0,
"nopat"). -/
theorem unknown_ids_not_silent :
    ¬ (∀ (workers : List Staff) (patterns : List ShiftPattern)
        (shifts : List Shift) (leaveRequests : List LeaveRequest)
        (date : Int) (userId patternId : String) (ex : Option String),
        (∀ w ∈ workers, w.id ≠ userId) → (∀ p ∈ patterns, p.id ≠ patternId) →
        checkConstraints shifts leaveRequests date userId patternId ex = []) := by
  intro h
  have h0 := h [] []
    [⟨"a", "x", 0, "q"⟩, ⟨"b", "y", 0, "q"⟩, ⟨"c", "z", 0, "q"⟩]
    [] 0 "ghost" "nopat" none (by simp) (by simp)
  have h1 : checkConstraints
      [⟨"a", "x", 0, "q"⟩, ⟨"b", "y", 0, "q"⟩, ⟨"c", "z", 0, "q"⟩]
      [] 0 "ghost" "nopat" none = [headcountMsg] := by decide
  rw [h1] at h0
  exact List.cons_ne_nil headcountMsg [] h0

/-- C7 amended: for a candidate whose worker id appears in no
LeaveRequest and in no existing Assignment, the checker raises no error
and emits neither the leave-conflict nor the consecutive-run warning;
its result is exactly the headcount warning when the same-date count
(excluding `excludeShiftId`) is at or above 3, and empty otherwise. -/
theorem check_unknown_worker_headcount_only (shifts : List Shift)
    (leaveRequests : List LeaveRequest) (date : Int) (userId : String)
    (patternId : String) (ex : Option String)
    (hleave : ∀ l ∈ leaveRequests, l.user_id ≠ userId)
    (hshift : ∀ s ∈ shifts, s.user_id ≠ userId) :
    checkConstraints shifts leaveRequests date userId patternId ex =
      if 3 ≤ (shifts.filter (fun shift =>
          shift.shift_date == date && some shift.id != ex)).length
      then [headcountMsg] else [] := by
  simp only [checkConstraints]
  have h1 : (leaveRequests.any fun leave =>
      leave.request_date == date && leave.user_id == userId) = false := by
    simp only [List.any_eq_false, Bool.and_eq_true, beq_iff_eq]
    exact fun l hl h => absurd h.2 (hleave l hl)
  have h2 : (shifts.any fun shift =>
      shift.shift_date == date - 1 && shift.user_id == userId &&
        some shift.id != ex) = false := by
    simp only [List.any_eq_false, Bool.and_eq_true, beq_iff_eq, bne_iff_ne]
    exact fun s hs h => absurd h.1.2 (hshift s hs)
  have h3 : (shifts.any fun shift =>
      shift.shift_date == date + 1 && shift.user_id == userId &&
        some shift.id != ex) = false := by
    simp only [List.any_eq_false, Bool.and_eq_true, beq_iff_eq, bne_iff_ne]
    exact fun s hs h => absurd h.1.2 (hshift s hs)
  rw [h1, h2, h3]
  simp

/-- C7 amended witness: candidate worker "ghost" appears in no leave
request and no assignment; with three same-date assignments by others
the result is exactly the headcount warning. -/
theorem check_unknown_worker_headcount_only_witness :
    checkConstraints
      [⟨"a", "x", 0, "q"⟩, ⟨"b", "y", 0, "q"⟩, ⟨"c", "z", 0, "q"⟩]
      [] 0 "ghost" "nopat" none =
      if 3 ≤ (List.filter (fun shift =>
          shift.shift_date == 0 && some shift.id != none)
          ([⟨"a", "x", 0, "q"⟩, ⟨"b", "y", 0, "q"⟩,
            ⟨"c", "z", 0, "q"⟩] : List Shift)).length
      then [headcountMsg] else [] :=
  check_unknown_worker_headcount_only
    [⟨"a", "x", 0, "q"⟩, ⟨"b", "y", 0, "q"⟩, ⟨"c", "z", 0, "q"⟩]
    [] 0 "ghost" "nopat" none (by decide) (by decide)

/-- Full-time test: the generator compares `role === '常勤'`. -/
def isFullTime (s : Staff) : Bool := s.role == "常勤"

/-- The generator's `availableStaff.sort(...)` with the comparator that
returns -1 when only `a` is full-time, 1 when only `b` is, else 0.  JS
sort is stable, and a stable sort under this two-class comparator is the
stable partition: full-time entries first, original order kept within
each class. -/
def sortStaffByRole (l : List Staff) : List Staff :=
  l.filter (fun s => isFullTime s) ++ l.filter (fun s => !isFullTime s)

/-- Per-day target headcount of the role-aware generator: 3 on Wednesday
(day-of-week 3), `min 4 available` on Saturday (6), otherwise 4.  Sunday
is skipped before this is consulted. -/
def targetStaff (dayOfWeek : Int) (availableCount : Nat) : Nat :=
  if dayOfWeek == 3 then 3
  else if dayOfWeek == 6 then min 4 availableCount
  else 4

/-- Pattern choice for the worker at selection index `i`: full-time
workers get `早番` (early) at even `i` and `遅番` (late) at odd `i`;
others alternate `パート1` / `パート2` the same way.  `find?` returns
`none` when the named pattern is absent from the catalog. -/
def patternForIndex (shiftPatterns : List ShiftPattern) (staffMember : Staff)
    (i : Nat) : Option ShiftPattern :=
  if isFullTime staffMember then
    if i % 2 == 0 then shiftPatterns.find? (fun p => p.pattern_name == "早番")
    else shiftPatterns.find? (fun p => p.pattern_name == "遅番")
  else
    if i % 2 == 0 then shiftPatterns.find? (fun p => p.pattern_name == "パート1")
    else shiftPatterns.find? (fun p => p.pattern_name == "パート2")

/-- Gregorian leap-year test. -/
def isLeapYear (y : Int) : Bool :=
  (y % 4 == 0 && y % 100 != 0) || y % 400 == 0

/-- Number of days in month `m` of year `y`; this is what the source's
`new Date(year, month, 0).getDate()` computes. -/
def daysInMonth (y : Int) (m : Nat) : Nat :=
  if m == 2 then (if isLeapYear y then 29 else 28)
  else if m == 4 || m == 6 || m == 9 || m == 11 then 30
  else 31

/-- Epoch day number of the civil date (y, m, d): days since 1970-01-01.
Standard civil-calendar conversion; models the date denoted by the JS
`Date` value `new Date(y, m - 1, d)` and the ISO string the generator
builds for that day. -/
def daysFromCivil (y : Int) (m d : Nat) : Int :=
  let yAdj : Int := if m ≤ 2 then y - 1 else y
  let era : Int := (if 0 ≤ yAdj then yAdj else yAdj - 399) / 400
  let yoe : Int := yAdj - era * 400
  let mp : Int := ((m : Int) + 9) % 12
  let doy : Int := (153 * mp + 2) / 5 + (d : Int) - 1
  let doe : Int := yoe * 365 + yoe / 4 - yoe / 100 + doy
  era * 146097 + doe - 719468

/-- Day of week of an epoch day number, as JS `Date.getDay`: 0 = Sunday,
…, 6 = Saturday (1970-01-01 was a Thursday, 4). -/
def dayOfWeekZ (z : Int) : Int := (z + 4) % 7

example : dayOfWeekZ (daysFromCivil 2025 6 1) = 0 := by decide

example : dayOfWeekZ (daysFromCivil 2025 6 10) = 2 := by decide

/-- One iteration of the generator's per-day loop (the role-aware
profile): skip Sunday; drop workers with a leave request on the date;
stable-sort full-time first; plan `min (target, pool)` workers, each
taking the parity pattern for its index, skipped if the named pattern is
missing from the catalog. -/
def planDay (staff : List Staff) (shiftPatterns : List ShiftPattern)
    (leaveRequests : List LeaveRequest) (y : Int) (m : Nat) (day : Nat) :
    List ShiftDraft :=
  let date := daysFromCivil y m day
  let dayOfWeek := dayOfWeekZ date
  if dayOfWeek == 0 then []
  else
    let unavailableStaffIds :=
      (leaveRequests.filter (fun leave => leave.request_date == date)).map
        (fun leave => leave.user_id)
    let availableStaff :=
      sortStaffByRole (staff.filter (fun s => !unavailableStaffIds.contains s.id))
    let shiftsPerDay := min (targetStaff dayOfWeek availableStaff.length)
      availableStaff.length
    (List.range shiftsPerDay).filterMap (fun i =>
      match availableStaff[i]? with
      | none => none
      | some staffMember =>
        match patternForIndex shiftPatterns staffMember i with
        | none => none
        | some pattern => some ⟨staffMember.id, date, pattern.id⟩)

/-- The Month Generator's accumulation loop: plan every day 1 … daysInMonth
of the target month in ascending order and concatenate the drafts. -/
def generateMonth (staff : List Staff) (shiftPatterns : List ShiftPattern)
    (leaveRequests : List LeaveRequest) (y : Int) (m : Nat) :
    List ShiftDraft :=
  (List.range (daysInMonth y m)).flatMap
    (fun d => planDay staff shiftPatterns leaveRequests y m (d + 1))

/-- Date-in-month test used to model the generator's range delete
(`gte first day`, `lte last day`; on ISO strings of the same month the
lexicographic range coincides with this day-number range). -/
def dateInMonth (y : Int) (m : Nat) (date : Int) : Bool :=
  daysFromCivil y m 1 ≤ date && date ≤ daysFromCivil y m (daysInMonth y m)

/-- Bulk-insert model: the store turns each draft into a persisted
assignment, handing out a fresh id (`newIds`) per inserted row. -/
def assignIds (newIds : Nat → String) (i : Nat) : List ShiftDraft → List Shift
  | [] => []
  | g :: gs =>
    ⟨newIds i, g.user_id, g.shift_date, g.pattern_id⟩ :: assignIds newIds (i + 1) gs

/-- One full run of the Month Generator against a stored assignment list:
range-delete the target month, regenerate from the (unchanged) roster,
catalog and leave requests, and bulk-insert with fresh ids handed out by
the store (`newIds`).  Returns the new store contents and the number of
assignments created. -/
def runGenerateMonth (stored : List Shift) (staff : List Staff)
    (shiftPatterns : List ShiftPattern) (leaveRequests : List LeaveRequest)
    (y : Int) (m : Nat) (newIds : Nat → String) : List Shift × Nat :=
  let kept := stored.filter (fun s => !dateInMonth y m s.shift_date)
  let generated := generateMonth staff shiftPatterns leaveRequests y m
  (kept ++ assignIds newIds 0 generated, generated.length)

/-- C2: the per-day target headcount is a function of day-of-week only —
3 on Wednesday (3), `min 4 available` on Saturday (6), the baseline 4 on
every other day — and on Sunday (0) the planner produces no assignments
at all. -/
theorem target_headcount_policy :
    (∀ a : Nat, targetStaff 3 a = 3)
    ∧ (∀ a : Nat, targetStaff 6 a = min 4 a)
    ∧ (∀ (d : Int) (a : Nat), d ≠ 3 → d ≠ 6 → targetStaff d a = 4)
    ∧ (∀ (staff : List Staff) (shiftPatterns : List ShiftPattern)
        (leaveRequests : List LeaveRequest) (y : Int) (m day : Nat),
        dayOfWeekZ (daysFromCivil y m day) = 0 →
        planDay staff shiftPatterns leaveRequests y m day = []) := by
  refine ⟨fun a => rfl, fun a => rfl, ?_, ?_⟩
  · intro d a h3 h6
    simp [targetStaff, h3, h6]
  · intro staff shiftPatterns leaveRequests y m day h
    simp [planDay, h]

/-- C2 witness: Monday gets the baseline 4, and planning Sunday
2025-06-01 produces nothing. -/
theorem target_headcount_policy_witness :
    targetStaff 1 5 = 4
    ∧ planDay [⟨"w1", "A", "常勤"⟩] [] [] 2025 6 1 = [] :=
  ⟨target_headcount_policy.2.2.1 1 5 (by decide) (by decide),
   target_headcount_policy.2.2.2 [⟨"w1", "A", "常勤"⟩] [] [] 2025 6 1
     (by decide)⟩

lemma mem_sortStaffByRole {st : Staff} {l : List Staff}
    (h : st ∈ sortStaffByRole l) : st ∈ l := by
  rcases List.mem_append.1 h with h' | h' <;>
    exact (List.mem_filter.1 h').1

/-- Drafts produced by the planner's selection loop carry the loop's date
and a worker drawn from the available pool. -/
lemma selection_loop_mem_elim {avail : List Staff}
    {shiftPatterns : List ShiftPattern} {date : Int} {n : Nat} {s : ShiftDraft}
    (hs : s ∈ (List.range n).filterMap (fun i =>
      match avail[i]? with
      | none => none
      | some staffMember =>
        match patternForIndex shiftPatterns staffMember i with
        | none => none
        | some pattern => some ⟨staffMember.id, date, pattern.id⟩)) :
    s.shift_date = date ∧ ∃ st ∈ avail, st.id = s.user_id := by
  obtain ⟨i, -, hF⟩ := List.mem_filterMap.1 hs
  split at hF
  · exact absurd hF (by simp)
  · split at hF
    · exact absurd hF (by simp)
    · simp only [Option.some.injEq] at hF
      rename_i xo st hget xp p hpat
      exact ⟨by rw [← hF], st, List.getElem?_mem hget, by rw [← hF]⟩

/-- Drafts produced by `planDay` select their worker from the available
pool and carry the planned day's date. -/
lemma planDay_mem_elim {staff : List Staff} {shiftPatterns : List ShiftPattern}
    {leaveRequests : List LeaveRequest} {y : Int} {m day : Nat}
    {s : ShiftDraft} (hs : s ∈ planDay staff shiftPatterns leaveRequests y m day) :
    s.shift_date = daysFromCivil y m day
    ∧ ∃ st ∈ staff, st.id = s.user_id ∧
      ((leaveRequests.filter
        (fun leave => leave.request_date == daysFromCivil y m day)).map
        (fun leave => leave.user_id)).contains st.id = false := by
  simp only [planDay] at hs
  split at hs
  · exact absurd hs (List.not_mem_nil s)
  · obtain ⟨hdate, st, hmem, hid⟩ := selection_loop_mem_elim hs
    have hstaff := List.mem_filter.1 (mem_sortStaffByRole hmem)
    refine ⟨hdate, st, hstaff.1, hid, ?_⟩
    have h2 := hstaff.2
    simpa using h2

/-- C6: month generation never assigns a worker on a date for which that
worker has a LeaveRequest — the worker is removed from that day's
candidate pool before selection. -/
theorem generateMonth_respects_leave (staff : List Staff)
    (shiftPatterns : List ShiftPattern) (leaveRequests : List LeaveRequest)
    (y : Int) (m : Nat) (leave : LeaveRequest) (hl : leave ∈ leaveRequests)
    (s : ShiftDraft)
    (hs : s ∈ generateMonth staff shiftPatterns leaveRequests y m)
    (hu : s.user_id = leave.user_id) : s.shift_date ≠ leave.request_date := by
  obtain ⟨d, -, hd⟩ := List.mem_flatMap.1 hs
  obtain ⟨hdate, st, -, hid, hcont⟩ := planDay_mem_elim hd
  intro heq
  have hleave : leave ∈ leaveRequests.filter
      (fun leave => leave.request_date == daysFromCivil y m (d + 1)) := by
    rw [List.mem_filter]
    exact ⟨hl, by rw [← heq, ← hdate]; exact beq_self_eq_true _⟩
  have : st.id ∈ (leaveRequests.filter
      (fun leave => leave.request_date == daysFromCivil y m (d + 1))).map
      (fun leave => leave.user_id) := by
    rw [hid, hu]
    exact List.mem_map_of_mem (fun leave => leave.user_id) hleave
  rw [List.contains_eq_any_beq, List.any_eq_false] at hcont
  exact hcont st.id this (beq_self_eq_true st.id)

/-- C6 witness: worker w1 has a LeaveRequest on 2025-06-10; generating
June 2025 contains an assignment for w1 on another day (2025-06-02, whose
date is thus not the leave date), and filtering the generated month for
(w1, 2025-06-10) yields nothing. -/
theorem generateMonth_respects_leave_witness :
    (⟨"w1", daysFromCivil 2025 6 2, "E"⟩ : ShiftDraft).shift_date ≠
      (⟨"l1", "w1", daysFromCivil 2025 6 10, "旅行"⟩ : LeaveRequest).request_date
    ∧ (generateMonth [⟨"w1", "A", "常勤"⟩]
        [⟨"E", "早番", "09:00", "18:00", 8⟩]
        [⟨"l1", "w1", daysFromCivil 2025 6 10, "旅行"⟩] 2025 6).filter
        (fun s => s.user_id == "w1" &&
          s.shift_date == daysFromCivil 2025 6 10) = [] :=
  ⟨generateMonth_respects_leave [⟨"w1", "A", "常勤"⟩]
      [⟨"E", "早番", "09:00", "18:00", 8⟩]
      [⟨"l1", "w1", daysFromCivil 2025 6 10, "旅行"⟩] 2025 6
      ⟨"l1", "w1", daysFromCivil 2025 6 10, "旅行"⟩ (by decide)
      ⟨"w1", daysFromCivil 2025 6 2, "E"⟩ (by decide) rfl,
   by decide⟩

/-- Spec-side model of the per-day Assignment Planner, written from the
spec's wording: skip the designated day; remove workers with a
LeaveRequest on the date; order the pool full-time first (stable);
select the first `min (target, pool size)` workers by taking a prefix;
give each selected worker the parity pattern for its selection index,
skipping the worker when the named pattern is absent. -/
def planDaySpecModel (staff : List Staff) (shiftPatterns : List ShiftPattern)
    (leaveRequests : List LeaveRequest) (y : Int) (m day : Nat) :
    List ShiftDraft :=
  let date := daysFromCivil y m day
  if dayOfWeekZ date == 0 then []
  else
    let onLeave :=
      (leaveRequests.filter (fun leave => leave.request_date == date)).map
        (fun leave => leave.user_id)
    let pool := staff.filter (fun s => !onLeave.contains s.id)
    let ordered :=
      pool.filter (fun s => isFullTime s) ++ pool.filter (fun s => !isFullTime s)
    let selected := ordered.take (targetStaff (dayOfWeekZ date) ordered.length)
    (List.range selected.length).filterMap (fun i =>
      match selected[i]? with
      | none => none
      | some staffMember =>
        match patternForIndex shiftPatterns staffMember i with
        | none => none
        | some pattern => some ⟨staffMember.id, date, pattern.id⟩)

/-- Indexing a `take`-prefix inside its range agrees with indexing the
whole list, so the two selection-loop phrasings coincide. -/
lemma take_selection_loop (l : List Staff) (n : Nat)
    (f : Nat → Staff → Option ShiftDraft) :
    (List.range (l.take n).length).filterMap (fun i =>
      match (l.take n)[i]? with
      | none => none
      | some a => f i a) =
    (List.range (min n l.length)).filterMap (fun i =>
      match l[i]? with
      | none => none
      | some a => f i a) := by
  rw [List.length_take]
  refine List.filterMap_congr (fun i hi => ?_)
  rw [List.getElem?_take_of_lt]
  exact lt_of_lt_of_le (List.mem_range.1 hi) (min_le_left n l.length)

/-- C1: the per-day planner is exactly the spec's description — remove
workers on leave, order full-time first (stable), select the first
`min (target, pool)` workers, give patterns by category and index parity,
and skip a selected worker whose named pattern is missing.  In
particular, with 5 full-time workers, no leave requests, and patterns
早番 (id "E") and 遅番 (id "L") in the catalog, planning the Monday
2025-06-02 (target 4) yields exactly 4 drafts for workers w1…w4 with
pattern sequence E, L, E, L. -/
theorem planDay_matches_spec :
    (∀ (staff : List Staff) (shiftPatterns : List ShiftPattern)
      (leaveRequests : List LeaveRequest) (y : Int) (m day : Nat),
      planDay staff shiftPatterns leaveRequests y m day =
        planDaySpecModel staff shiftPatterns leaveRequests y m day)
    ∧ planDay
        [⟨"w1", "A", "常勤"⟩, ⟨"w2", "B", "常勤"⟩, ⟨"w3", "C", "常勤"⟩,
          ⟨"w4", "D", "常勤"⟩, ⟨"w5", "E", "常勤"⟩]
        [⟨"E", "早番", "09:00", "18:00", 8⟩, ⟨"L", "遅番", "11:00", "20:00", 8⟩]
        [] 2025 6 2 =
      [⟨"w1", daysFromCivil 2025 6 2, "E"⟩, ⟨"w2", daysFromCivil 2025 6 2, "L"⟩,
        ⟨"w3", daysFromCivil 2025 6 2, "E"⟩,
        ⟨"w4", daysFromCivil 2025 6 2, "L"⟩] := by
  constructor
  · intro staff shiftPatterns leaveRequests y m day
    simp only [planDay, planDaySpecModel, sortStaffByRole]
    split
    · rfl
    · rw [take_selection_loop]
  · decide

lemma nodup_ids_filter (l : List Staff) (p : Staff → Bool)
    (h : (l.map (fun s => s.id)).Nodup) :
    ((l.filter p).map (fun s => s.id)).Nodup :=
  h.sublist ((List.filter_sublist l).map (fun s => s.id))

lemma nodup_ids_sortStaffByRole {l : List Staff}
    (h : (l.map (fun s => s.id)).Nodup) :
    ((sortStaffByRole l).map (fun s => s.id)).Nodup := by
  have hinj := List.inj_on_of_nodup_map h
  simp only [sortStaffByRole, List.map_append]
  rw [List.nodup_append]
  refine ⟨nodup_ids_filter l _ h, nodup_ids_filter l _ h, ?_⟩
  intro x hxA hxB
  obtain ⟨a, haf, hax⟩ := List.mem_map.1 hxA
  obtain ⟨b, hbf, hbx⟩ := List.mem_map.1 hxB
  obtain ⟨hal, hap⟩ := List.mem_filter.1 haf
  obtain ⟨hbl, hbp⟩ := List.mem_filter.1 hbf
  have hab : a = b := hinj hal hbl (by rw [hax, hbx])
  rw [hab] at hap
  rw [Bool.not_eq_eq_eq_not, Bool.not_true] at hbp
  rw [hbp] at hap
  exact Bool.false_ne_true hap

/-- A successful entry of the selection loop at index `i` exposes the id
of the worker stored at position `i` of the pool. -/
lemma selection_entry_id {avail : List Staff} {shiftPatterns : List ShiftPattern}
    {date : Int} {i : Nat} {x : String}
    (h : Option.map (fun s : ShiftDraft => s.user_id)
      (match avail[i]? with
       | none => none
       | some staffMember =>
         match patternForIndex shiftPatterns staffMember i with
         | none => none
         | some pattern =>
           some ⟨staffMember.id, date, pattern.id⟩) = some x) :
    (avail.map (fun s => s.id))[i]? = some x := by
  split at h
  · simp at h
  · split at h
    · simp at h
    · rename_i xo st hget xp p hpat
      simp only [Option.map_some', Option.some.injEq] at h
      rw [List.getElem?_map, hget]
      simpa using h

/-- The user ids of the drafts produced by one run of the selection loop
are pairwise distinct whenever the pool's ids are. -/
lemma selection_loop_user_ids_nodup (avail : List Staff)
    (shiftPatterns : List ShiftPattern) (date : Int) (n : Nat)
    (h : (avail.map (fun s => s.id)).Nodup) :
    (((List.range n).filterMap (fun i =>
      match avail[i]? with
      | none => none
      | some staffMember =>
        match patternForIndex shiftPatterns staffMember i with
        | none => none
        | some pattern =>
          some (⟨staffMember.id, date, pattern.id⟩ : ShiftDraft))).map
      (fun s => s.user_id)).Nodup := by
  rw [List.map_filterMap]
  refine List.Nodup.filterMap ?_ (List.nodup_range n)
  intro i j x hi hj
  rw [Option.mem_def] at hi hj
  have hi' := selection_entry_id hi
  have hj' := selection_entry_id hj
  obtain ⟨hlt, -⟩ := List.getElem?_eq_some_iff.1 hi'
  exact List.getElem?_inj hlt h (by rw [hi', hj'])

/-- C10: on any single planned day, assuming the roster's worker ids are
distinct, the generated drafts contain at most one assignment per worker
id — the selection loop walks distinct positions of the available pool. -/
theorem planDay_user_ids_nodup (staff : List Staff)
    (shiftPatterns : List ShiftPattern) (leaveRequests : List LeaveRequest)
    (y : Int) (m day : Nat)
    (hids : (staff.map (fun s => s.id)).Nodup) :
    ((planDay staff shiftPatterns leaveRequests y m day).map
      (fun s => s.user_id)).Nodup := by
  simp only [planDay]
  split
  · simp
  · exact selection_loop_user_ids_nodup _ _ _ _
      (nodup_ids_sortStaffByRole (nodup_ids_filter _ _ hids))

/-- C10 witness: a concrete roster with distinct ids plans 2025-06-02
with pairwise-distinct worker ids. -/
theorem planDay_user_ids_nodup_witness :
    ((planDay
      [⟨"w1", "A", "常勤"⟩, ⟨"w2", "B", "パート"⟩, ⟨"w3", "C", "常勤"⟩]
      [⟨"E", "早番", "09:00", "18:00", 8⟩, ⟨"L", "遅番", "11:00", "20:00", 8⟩,
        ⟨"P1", "パート1", "09:00", "14:00", 5⟩, ⟨"P2", "パート2", "14:00", "19:00", 5⟩]
      [] 2025 6 2).map (fun s => s.user_id)).Nodup :=
  planDay_user_ids_nodup
    [⟨"w1", "A", "常勤"⟩, ⟨"w2", "B", "パート"⟩, ⟨"w3", "C", "常勤"⟩]
    [⟨"E", "早番", "09:00", "18:00", 8⟩, ⟨"L", "遅番", "11:00", "20:00", 8⟩,
      ⟨"P1", "パート1", "09:00", "14:00", 5⟩, ⟨"P2", "パート2", "14:00", "19:00", 5⟩]
    [] 2025 6 2 (by decide)

lemma assignIds_length (newIds : Nat → String) (i : Nat)
    (gs : List ShiftDraft) : (assignIds newIds i gs).length = gs.length := by
  induction gs generalizing i with
  | nil => rfl
  | cons g gs ih => simp [assignIds, ih]

lemma assignIds_shift_date {newIds : Nat → String} {i : Nat}
    {gs : List ShiftDraft} {s : Shift} (hs : s ∈ assignIds newIds i gs) :
    ∃ g ∈ gs, s.shift_date = g.shift_date := by
  induction gs generalizing i with
  | nil => exact absurd hs (List.not_mem_nil s)
  | cons g gs ih =>
    rcases List.mem_cons.1 hs with h | h
    · exact ⟨g, List.mem_cons_self g gs, by rw [h]⟩
    · obtain ⟨g', hg', he⟩ := ih h
      exact ⟨g', List.mem_cons_of_mem g hg', he⟩

/-- For a fixed year and month the civil-to-epoch conversion is linear in
the day, so day order and day distinctness transfer to dates. -/
lemma daysFromCivil_linear (y : Int) (m d : Nat) :
    daysFromCivil y m d = daysFromCivil y m 0 + d := by
  simp only [daysFromCivil]
  push_cast
  ring

/-- Every draft generated for a month carries a date inside that month's
range. -/
lemma generateMonth_dates {staff : List Staff}
    {shiftPatterns : List ShiftPattern} {leaveRequests : List LeaveRequest}
    {y : Int} {m : Nat} {s : ShiftDraft}
    (hs : s ∈ generateMonth staff shiftPatterns leaveRequests y m) :
    dateInMonth y m s.shift_date = true := by
  obtain ⟨d, hd, hpd⟩ := List.mem_flatMap.1 hs
  have hdate := (planDay_mem_elim hpd).1
  have hlt := List.mem_range.1 hd
  simp only [dateInMonth, Bool.and_eq_true, decide_eq_true_eq]
  rw [hdate, daysFromCivil_linear y m (d + 1), daysFromCivil_linear y m 1,
    daysFromCivil_linear y m (daysInMonth y m)]
  constructor <;> [push_cast; push_cast] <;> omega

/-- After one generator run, the stored assignments dated inside the
target month are exactly the freshly inserted ones. -/
lemma runGenerateMonth_month_count (stored : List Shift) (staff : List Staff)
    (shiftPatterns : List ShiftPattern) (leaveRequests : List LeaveRequest)
    (y : Int) (m : Nat) (newIds : Nat → String) :
    ((runGenerateMonth stored staff shiftPatterns leaveRequests y m
      newIds).1.filter (fun s => dateInMonth y m s.shift_date)).length =
    (runGenerateMonth stored staff shiftPatterns leaveRequests y m newIds).2 := by
  simp only [runGenerateMonth]
  rw [List.filter_append]
  have h1 : (stored.filter (fun s => !dateInMonth y m s.shift_date)).filter
      (fun s => dateInMonth y m s.shift_date) = [] := by
    rw [List.filter_eq_nil_iff]
    intro a ha
    have h2 := (List.mem_filter.1 ha).2
    rw [Bool.not_eq_eq_eq_not, Bool.not_true] at h2
    simp [h2]
  have h3 : (assignIds newIds 0
      (generateMonth staff shiftPatterns leaveRequests y m)).filter
      (fun s => dateInMonth y m s.shift_date) =
      assignIds newIds 0 (generateMonth staff shiftPatterns leaveRequests y m) := by
    rw [List.filter_eq_self]
    intro a ha
    obtain ⟨g, hg, he⟩ := assignIds_shift_date ha
    rw [he]
    exact generateMonth_dates hg
  rw [h1, h3, List.nil_append, assignIds_length]

/-- C8: running the Month Generator twice on the same month with unchanged
roster, catalog and leave requests creates the same number of assignments
both times, and after each run the store holds exactly that many
assignments dated in the month — the second run range-deletes the first
run's output and regenerates deterministically from the same inputs. -/
theorem runGenerateMonth_twice_same_count (stored : List Shift)
    (staff : List Staff) (shiftPatterns : List ShiftPattern)
    (leaveRequests : List LeaveRequest) (y : Int) (m : Nat)
    (newIds₁ newIds₂ : Nat → String) :
    (runGenerateMonth stored staff shiftPatterns leaveRequests y m newIds₁).2 =
      (runGenerateMonth
        (runGenerateMonth stored staff shiftPatterns leaveRequests y m newIds₁).1
        staff shiftPatterns leaveRequests y m newIds₂).2
    ∧ ((runGenerateMonth stored staff shiftPatterns leaveRequests y m
        newIds₁).1.filter (fun s => dateInMonth y m s.shift_date)).length =
      (runGenerateMonth stored staff shiftPatterns leaveRequests y m newIds₁).2
    ∧ ((runGenerateMonth
        (runGenerateMonth stored staff shiftPatterns leaveRequests y m newIds₁).1
        staff shiftPatterns leaveRequests y m newIds₂).1.filter
        (fun s => dateInMonth y m s.shift_date)).length =
      (runGenerateMonth
        (runGenerateMonth stored staff shiftPatterns leaveRequests y m newIds₁).1
        staff shiftPatterns leaveRequests y m newIds₂).2 :=
  ⟨rfl,
   runGenerateMonth_month_count stored staff shiftPatterns leaveRequests y m newIds₁,
   runGenerateMonth_month_count _ staff shiftPatterns leaveRequests y m newIds₂⟩

/-- Per-worker shift rows of the statistics
(`shifts.filter(shift => shift.user_id === member.id)`). -/
def memberShifts (shifts : List Shift) (memberId : String) : List Shift :=
  shifts.filter (fun shift => shift.user_id == memberId)

/-- Worked-day count of one worker (`memberShifts.length`). -/
def memberWorkDays (shifts : List Shift) (memberId : String) : Nat :=
  (memberShifts shifts memberId).length

/-- Total monthly hours of one worker: the fold accumulating the matched
pattern's `working_hours`, or 0 when the pattern id is not found. -/
def memberTotalHours (shifts : List Shift) (shiftPatterns : List ShiftPattern)
    (memberId : String) : ℚ :=
  (memberShifts shifts memberId).foldl (fun sum shift =>
    sum + (match shiftPatterns.find? (fun p => p.id == shift.pattern_id) with
      | some pattern => pattern.working_hours
      | none => 0)) 0

/-- The numeric value displayed as average hours per day:
`workDays > 0 ? totalHours / workDays : 0` (the source then formats it
with one decimal; we model the unformatted quotient). -/
def memberAvgHours (shifts : List Shift) (shiftPatterns : List ShiftPattern)
    (memberId : String) : ℚ :=
  if 0 < memberWorkDays shifts memberId then
    memberTotalHours shifts shiftPatterns memberId /
      (memberWorkDays shifts memberId : ℚ)
  else 0

/-- C9: the reported average is `totalHours / dayCount` when the day count
is positive and 0 when it is 0, and in the division branch the divisor is
provably nonzero, so the division is never evaluated with a zero
divisor. -/
theorem avg_hours_guarded (shifts : List Shift)
    (shiftPatterns : List ShiftPattern) (memberId : String) :
    (memberWorkDays shifts memberId = 0 →
      memberAvgHours shifts shiftPatterns memberId = 0)
    ∧ (memberWorkDays shifts memberId ≠ 0 →
      ((memberWorkDays shifts memberId : ℚ) ≠ 0
      ∧ memberAvgHours shifts shiftPatterns memberId =
        memberTotalHours shifts shiftPatterns memberId /
          (memberWorkDays shifts memberId : ℚ))) := by
  constructor
  · intro h
    simp [memberAvgHours, h]
  · intro h
    refine ⟨by exact_mod_cast h, ?_⟩
    simp [memberAvgHours, Nat.pos_of_ne_zero h]

/-- C9 witness: a worker with no shifts reports average 0; a worker with
one 8-hour shift is in the positive branch with a nonzero divisor. -/
theorem avg_hours_guarded_witness :
    memberAvgHours [] [⟨"E", "早番", "09:00", "18:00", 8⟩] "w1" = 0
    ∧ ((memberWorkDays [⟨"s1", "w1", 0, "E"⟩] "w1" : ℚ) ≠ 0
      ∧ memberAvgHours [⟨"s1", "w1", 0, "E"⟩]
          [⟨"E", "早番", "09:00", "18:00", 8⟩] "w1" =
        memberTotalHours [⟨"s1", "w1", 0, "E"⟩]
          [⟨"E", "早番", "09:00", "18:00", 8⟩] "w1" /
          (memberWorkDays [⟨"s1", "w1", 0, "E"⟩] "w1" : ℚ)) :=
  ⟨(avg_hours_guarded [] [⟨"E", "早番", "09:00", "18:00", 8⟩] "w1").1 rfl,
   (avg_hours_guarded [⟨"s1", "w1", 0, "E"⟩]
      [⟨"E", "早番", "09:00", "18:00", 8⟩] "w1").2 (by decide)⟩
